import Mathlib

/-!
Verification of the Ariel FLIP fluid simulator core against its
natural-language specification.

The development shallowly embeds the pressure-solver file
(src/geom/geom.inl, namespace fluidCore of the C++ source) and the
per-step pipeline (src/sim/flip.cpp).  C++ floats are modelled as real
numbers; grids are modelled as total functions from integer cell indices
to values, matching the background-value semantics of the VDB-backed
float grids the source allocates with a single background argument.
Loops that the source runs as tbb parallel-for with disjoint writes are
embedded either as sequential folds (when the source runs them
sequentially) or as pointwise maps (when the source runs them in
parallel over disjoint write sets, which is only well defined because
reads and writes are disjoint).
-/

open Classical

namespace Ariel

/-- Cell markers of the MAC grid, the geomtype enum of the source. -/
inductive CellType where
  | AIR : CellType
  | FLUID : CellType
  | SOLID : CellType
deriving DecidableEq, Repr

/-- A float-valued grid: total map from integer cell indices to values.
The source backs these with sparse grids created from a background value,
so reads and writes at any index are meaningful. -/
def FGrid : Type := ℤ → ℤ → ℤ → ℝ

/-- A marker grid (the intgrid of the source holding cell types). -/
def IGrid : Type := ℤ → ℤ → ℤ → CellType

/-- Write one cell of a float grid (the setCell of the source). -/
def setCell (g : FGrid) (i j k : ℤ) (v : ℝ) : FGrid :=
  fun a b c => if a = i ∧ b = j ∧ c = k then v else g a b c

/-- The staggered MAC grid record (macgrid of the source): dimensions,
face velocities, pressure P, divergence D, level set L, markers A. -/
structure macgrid where
  dimx : ℕ
  dimy : ℕ
  dimz : ℕ
  u_x : FGrid
  u_y : FGrid
  u_z : FGrid
  P : FGrid
  D : FGrid
  L : FGrid
  A : IGrid

/-- The flat-index decomposition used by every solver loop of the source:
i = (gn % (x*y)) % z, j = (gn % (x*y)) / z, k = gn / (x*y). -/
def gidx (x y z gn : ℕ) : ℤ × ℤ × ℤ :=
  (((gn % (x * y)) % z : ℕ), ((gn % (x * y)) / z : ℕ), (gn / (x * y) : ℕ))

/-- One step of flipGrid: negate the cell addressed by flat index gn. -/
def flipStep (x y z : ℕ) (g : FGrid) (gn : ℕ) : FGrid :=
  let c := gidx x y z gn
  setCell g c.1 c.2.1 c.2.2 (-(g c.1 c.2.1 c.2.2))

/-- flipGrid of the source: loop over gn in [0, x*y*z) negating the cell
addressed through the flat-index decomposition. -/
def flipGrid (grid : FGrid) (x y z : ℕ) : FGrid :=
  (List.range (x * y * z)).foldl (flipStep x y z) grid

/-- ARef of the source: the off-diagonal matrix entry, -1 only between two
in-domain FLUID cells, else 0. -/
def ARef (A : IGrid) (i j k qi qj qk : ℤ) (x y z : ℕ) : ℝ :=
  if i < 0 ∨ i > (x : ℤ) - 1 ∨ j < 0 ∨ j > (y : ℤ) - 1 ∨ k < 0 ∨ k > (z : ℤ) - 1 ∨
     A i j k ≠ CellType.FLUID then 0
  else if qi < 0 ∨ qi > (x : ℤ) - 1 ∨ qj < 0 ∨ qj > (y : ℤ) - 1 ∨ qk < 0 ∨ qk > (z : ℤ) - 1 ∨
     A qi qj qk ≠ CellType.FLUID then 0
  else -1

/-- PRef of the source.  The source compares the float cell of the
preconditioner grid itself against the FLUID enum constant
(p->getCell(i,j,k)!=FLUID); the numeric value that the enum constant
converts to is defined outside the provided sources, so it is taken here
as the parameter fluidVal. -/
noncomputable def PRef (fluidVal : ℝ) (p : FGrid) (i j k : ℤ) (x y z : ℕ) : ℝ :=
  if i < 0 ∨ i > (x : ℤ) - 1 ∨ j < 0 ∨ j > (y : ℤ) - 1 ∨ k < 0 ∨ k > (z : ℤ) - 1 ∨
     p i j k ≠ fluidVal then 0
  else p i j k

/-- The six neighbor offsets in the order the source lists them. -/
def faceNbrs (i j k : ℤ) : List (ℤ × ℤ × ℤ) :=
  [(i - 1, j, k), (i + 1, j, k), (i, j - 1, k), (i, j + 1, k), (i, j, k - 1), (i, j, k + 1)]

/-- ADiag of the source: matrix diagonal at a cell; 6 minus 1 per
out-of-domain or SOLID neighbor, minus the ghost-fluid weight
L(q)/min(1e-6, L(c)) per AIR neighbor when subcell is on. -/
noncomputable def ADiag (A : IGrid) (L : FGrid) (i j k : ℤ) (x y z : ℕ) (subcell : ℕ) : ℝ :=
  if A i j k ≠ CellType.FLUID then 6
  else
    (faceNbrs i j k).foldl (fun diag q =>
      if q.1 < 0 ∨ q.1 > (x : ℤ) - 1 ∨ q.2.1 < 0 ∨ q.2.1 > (y : ℤ) - 1 ∨
         q.2.2 < 0 ∨ q.2.2 > (z : ℤ) - 1 ∨ A q.1 q.2.1 q.2.2 = CellType.SOLID then
        diag - 1
      else if A q.1 q.2.1 q.2.2 = CellType.AIR ∧ subcell ≠ 0 then
        diag - L q.1 q.2.1 q.2.2 / min (1e-6) (L i j k)
      else diag) 6

/-- One step of buildPreconditioner at flat index gn. -/
noncomputable def bpStep (fluidVal : ℝ) (mgrid : macgrid) (subcell : ℕ)
    (pc : FGrid) (gn : ℕ) : FGrid :=
  let x := mgrid.dimx
  let y := mgrid.dimy
  let z := mgrid.dimz
  let c := gidx x y z gn
  let i := c.1
  let j := c.2.1
  let k := c.2.2
  if mgrid.A i j k = CellType.FLUID then
    let left := ARef mgrid.A (i - 1) j k i j k x y z * PRef fluidVal pc (i - 1) j k x y z
    let bottom := ARef mgrid.A i (j - 1) k i j k x y z * PRef fluidVal pc i (j - 1) k x y z
    let back := ARef mgrid.A i j (k - 1) i j k x y z * PRef fluidVal pc i j (k - 1) x y z
    let diag := ADiag mgrid.A mgrid.L i j k x y z subcell
    let e0 := diag - left * left - bottom * bottom - back * back
    if 0 < diag then
      let e := if e0 < 0.25 * diag then diag else e0
      setCell pc i j k (1 / Real.sqrt e)
    else pc
  else pc

/-- buildPreconditioner of the source: MIC(0) factor, looping over all
flat indices in order. -/
noncomputable def buildPreconditioner (fluidVal : ℝ) (pc : FGrid) (mgrid : macgrid)
    (subcell : ℕ) : FGrid :=
  (List.range (mgrid.dimx * mgrid.dimy * mgrid.dimz)).foldl
    (bpStep fluidVal mgrid subcell) pc

/-- xRef of the source: read X at a clamped neighbor index with the
FLUID/SOLID/AIR ghost-fluid rules. -/
noncomputable def xRef (A : IGrid) (L X : FGrid) (fi fj fk pi pj pk : ℤ) (x y z : ℕ)
    (subcell : ℕ) : ℝ :=
  let i := min (max 0 pi) ((x : ℤ) - 1)
  let j := min (max 0 pj) ((y : ℤ) - 1)
  let k := min (max 0 pk) ((z : ℤ) - 1)
  if A i j k = CellType.FLUID then X i j k
  else if A i j k = CellType.SOLID then X fi fj fk
  else if subcell ≠ 0 then L i j k / min (1e-6) (L fi fj fk) * X fi fj fk
  else 0

/-- One step of op at flat index gn: write X + alpha*Y on FLUID cells,
0 elsewhere, into the accumulating target grid. -/
noncomputable def opStep (A : IGrid) (X Y : FGrid) (alpha : ℝ) (x y z : ℕ)
    (target : FGrid) (gn : ℕ) : FGrid :=
  let c := gidx x y z gn
  if A c.1 c.2.1 c.2.2 = CellType.FLUID then
    setCell target c.1 c.2.1 c.2.2 (X c.1 c.2.1 c.2.2 + alpha * Y c.1 c.2.1 c.2.2)
  else setCell target c.1 c.2.1 c.2.2 0

/-- op of the source: target = X + alpha*Y on FLUID cells, 0 elsewhere. -/
noncomputable def op (A : IGrid) (X Y target : FGrid) (alpha : ℝ) (x y z : ℕ) : FGrid :=
  (List.range (x * y * z)).foldl (opStep A X Y alpha x y z) target

/-- One step of computeAx at flat index gn. -/
noncomputable def axStep (A : IGrid) (L X : FGrid) (x y z : ℕ) (subcell : ℕ)
    (target : FGrid) (gn : ℕ) : FGrid :=
  let n : ℝ := max (max (x : ℝ) (y : ℝ)) (z : ℝ)
  let h : ℝ := 1 / (n * n)
  let c := gidx x y z gn
  let i := c.1
  let j := c.2.1
  let k := c.2.2
  if A i j k = CellType.FLUID then
    setCell target i j k
      ((6 * X i j k
        - xRef A L X i j k (i + 1) j k x y z subcell
        - xRef A L X i j k (i - 1) j k x y z subcell
        - xRef A L X i j k i (j + 1) k x y z subcell
        - xRef A L X i j k i (j - 1) k x y z subcell
        - xRef A L X i j k i j (k + 1) x y z subcell
        - xRef A L X i j k i j (k - 1) x y z subcell) / h)
  else setCell target i j k 0

/-- computeAx of the source: target = (scaled) 7-point Laplacian of X on
FLUID cells, 0 elsewhere. -/
noncomputable def computeAx (A : IGrid) (L X target : FGrid) (x y z : ℕ) (subcell : ℕ) : FGrid :=
  (List.range (x * y * z)).foldl (axStep A L X x y z subcell) target

/-- The all-zero float grid, the state of a freshly allocated floatgrid
with background 0. -/
def zeroF : FGrid := fun _ _ _ => 0

/-- solveConjugateGradient of the source.  The body allocates local
grids r, z, s, computes z = A(P) and r = D - z, and returns; it never
iterates and never writes to the macgrid.  The embedding returns the
three local grids; the macgrid is untouched. -/
noncomputable def solveConjugateGradient (mgrid : macgrid) (pc : FGrid) (subcell : ℕ) :
    FGrid × FGrid × FGrid :=
  let z := computeAx mgrid.A mgrid.L mgrid.P zeroF mgrid.dimx mgrid.dimy mgrid.dimz subcell
  let r := op mgrid.A mgrid.D z zeroF (-1) mgrid.dimx mgrid.dimy mgrid.dimz
  (r, z, zeroF)

/-- solve of the source: negate D in place, build the preconditioner
into a fresh zero grid, call solveConjugateGradient, and return. -/
noncomputable def solve (fluidVal : ℝ) (mgrid : macgrid) (subcell : ℕ) : macgrid :=
  let mgrid1 := { mgrid with D := flipGrid mgrid.D mgrid.dimx mgrid.dimy mgrid.dimz }
  let preconditioner := buildPreconditioner fluidVal zeroF mgrid1 subcell
  let _ := solveConjugateGradient mgrid1 preconditioner subcell
  mgrid1

/-!
Machinery for the flat-index loops: when the x and z dimensions agree,
the decomposition gidx is a bijection between [0, x*y*z) and the cell
box, so each loop visits every cell exactly once.
-/

/-- The flat index encoding a cell, inverse of gidx when x = z. -/
def genc (x y i j k : ℕ) : ℕ := k * (x * y) + (j * x + i)

theorem gidx_genc (x y z i j k : ℕ) (hxz : x = z) (hi : i < x) (hj : j < y) (hk : k < z) :
    gidx x y z (genc x y i j k) = ((i : ℤ), (j : ℤ), (k : ℤ)) := by
  subst hxz
  have hx0 : 0 < x := by omega
  have hm : j * x + i < x * y := by
    calc j * x + i < j * x + x := by omega
    _ = (j + 1) * x := by ring
    _ ≤ y * x := Nat.mul_le_mul_right x hj
    _ = x * y := Nat.mul_comm y x
  have hxy : 0 < x * y := by omega
  have h1 : genc x y i j k % (x * y) = j * x + i := by
    unfold genc
    rw [Nat.mul_comm k (x * y), Nat.mul_add_mod]
    exact Nat.mod_eq_of_lt hm
  have h2 : genc x y i j k / (x * y) = k := by
    unfold genc
    rw [Nat.mul_comm k (x * y), Nat.mul_add_div hxy, Nat.div_eq_of_lt hm]
    omega
  unfold gidx
  rw [h1, h2]
  have h3 : (j * x + i) % x = i := by
    rw [Nat.mul_comm j x, Nat.mul_add_mod]
    exact Nat.mod_eq_of_lt hi
  have h4 : (j * x + i) / x = j := by
    rw [Nat.mul_comm j x, Nat.mul_add_div hx0, Nat.div_eq_of_lt hi]
    omega
  rw [h3, h4]

theorem genc_lt (x y z i j k : ℕ) (hxz : x = z) (hi : i < x) (hj : j < y) (hk : k < z) :
    genc x y i j k < x * y * z := by
  subst hxz
  unfold genc
  have hm : j * x + i < x * y := by
    calc j * x + i < j * x + x := by omega
    _ = (j + 1) * x := by ring
    _ ≤ y * x := Nat.mul_le_mul_right x hj
    _ = x * y := Nat.mul_comm y x
  calc k * (x * y) + (j * x + i) < k * (x * y) + x * y := by omega
  _ = (k + 1) * (x * y) := by ring
  _ ≤ x * (x * y) := Nat.mul_le_mul_right (x * y) hk
  _ = x * y * x := by ring

/-- Any flat index below x*y*z is the encoding of its own decomposition
(x = z case): gidx determines the flat index. -/
theorem gidx_det (x y z gn : ℕ) (hxz : x = z) (hgn : gn < x * y * z) :
    gn = (gn / (x * y)) * (x * y) + (((gn % (x * y)) / z) * x + (gn % (x * y)) % z) := by
  subst hxz
  have h1 : (gn % (x * y)) / x * x + (gn % (x * y)) % x = gn % (x * y) :=
    Nat.div_add_mod' _ _
  have h2 : gn / (x * y) * (x * y) + gn % (x * y) = gn := Nat.div_add_mod' _ _
  rw [h1, h2]

theorem gidx_inj (x y z gn1 gn2 : ℕ) (hxz : x = z)
    (h1 : gn1 < x * y * z) (h2 : gn2 < x * y * z)
    (heq : gidx x y z gn1 = gidx x y z gn2) : gn1 = gn2 := by
  unfold gidx at heq
  rw [Prod.mk.injEq, Prod.mk.injEq] at heq
  obtain ⟨ha, hb, hc⟩ := heq
  have e1 : gn1 % (x * y) % z = gn2 % (x * y) % z := by exact_mod_cast ha
  have e2 : gn1 % (x * y) / z = gn2 % (x * y) / z := by exact_mod_cast hb
  have e3 : gn1 / (x * y) = gn2 / (x * y) := by exact_mod_cast hc
  have d1 := gidx_det x y z gn1 hxz h1
  have d2 := gidx_det x y z gn2 hxz h2
  rw [d1, d2, e1, e2, e3]

/-- A fold whose step leaves a given cell alone on every index of the
list leaves the value at that cell unchanged. -/
theorem foldl_keep (s : FGrid → ℕ → FGrid) (l : List ℕ) (a b c : ℤ)
    (h : ∀ g gn, gn ∈ l → s g gn a b c = g a b c) :
    ∀ g : FGrid, (l.foldl s g) a b c = g a b c := by
  induction l with
  | nil => intro g; rfl
  | cons hd tl ih =>
    intro g
    rw [List.foldl_cons]
    rw [ih (fun g gn hgn => h g gn (List.mem_cons_of_mem hd hgn))]
    exact h g hd (List.mem_cons_self hd tl)

/-- Splitting a fold over List.range at a chosen index. -/
theorem foldl_range_split (s : FGrid → ℕ → FGrid) (g0 : FGrid) (n gn0 : ℕ) (h : gn0 < n) :
    (List.range n).foldl s g0 =
      ((List.range (n - gn0 - 1)).map (fun m => (gn0 + 1) + m)).foldl s
        (s ((List.range gn0).foldl s g0) gn0) := by
  have hn : n = (gn0 + 1) + (n - gn0 - 1) := by omega
  conv_lhs => rw [hn, List.range_add, List.foldl_append, List.range_succ, List.foldl_append]
  simp only [List.foldl_cons, List.foldl_nil]

/-- setCell at one cell read at another cell returns the old value. -/
theorem setCell_ne (g : FGrid) (i j k a b c : ℤ) (v : ℝ)
    (h : ¬(a = i ∧ b = j ∧ c = k)) : setCell g i j k v a b c = g a b c := by
  unfold setCell
  simp only [h, if_false]

/-- setCell read back at the written cell returns the new value. -/
theorem setCell_eq (g : FGrid) (i j k : ℤ) (v : ℝ) : setCell g i j k v i j k = v := by
  unfold setCell
  simp

/-- flipStep away from its own cell is the identity. -/
theorem flipStep_frame (x y z : ℕ) (g : FGrid) (gn : ℕ) (a b c : ℤ)
    (h : gidx x y z gn ≠ (a, b, c)) : flipStep x y z g gn a b c = g a b c := by
  unfold flipStep
  apply setCell_ne
  intro hc
  apply h
  rw [hc.1, hc.2.1, hc.2.2]

/-- flipStep at its own cell negates the value there. -/
theorem flipStep_self (x y z : ℕ) (g : FGrid) (gn : ℕ) (a b c : ℤ)
    (h : gidx x y z gn = (a, b, c)) : flipStep x y z g gn a b c = -(g a b c) := by
  unfold flipStep
  rw [h]
  exact setCell_eq g a b c _

/-- Core coverage lemma for flipGrid on grids with x = z: every in-range
cell ends up negated.  Shared by the C2 development and the solver
claims. -/
theorem flipGrid_at (D : FGrid) (x y z : ℕ) (i j k : ℕ) (hxz : x = z)
    (hi : i < x) (hj : j < y) (hk : k < z) :
    flipGrid D x y z (i : ℤ) (j : ℤ) (k : ℤ) = -(D (i : ℤ) (j : ℤ) (k : ℤ)) := by
  unfold flipGrid
  set gn0 := genc x y i j k with hgn0
  have hlt := genc_lt x y z i j k hxz hi hj hk
  have hcell := gidx_genc x y z i j k hxz hi hj hk
  rw [← hgn0] at hcell hlt
  rw [foldl_range_split (flipStep x y z) D (x * y * z) gn0 hlt]
  have hpre : ((List.range gn0).foldl (flipStep x y z) D) (i : ℤ) (j : ℤ) (k : ℤ) =
      D (i : ℤ) (j : ℤ) (k : ℤ) := by
    apply foldl_keep
    intro g gn hgn
    apply flipStep_frame
    intro hcontra
    have hgnlt : gn < gn0 := List.mem_range.mp hgn
    have : gn = gn0 := by
      apply gidx_inj x y z gn gn0 hxz (lt_trans hgnlt hlt) hlt
      rw [hcontra, hcell]
    omega
  have hsuf : ∀ g : FGrid,
      (((List.range (x * y * z - gn0 - 1)).map (fun m => (gn0 + 1) + m)).foldl
        (flipStep x y z) g) (i : ℤ) (j : ℤ) (k : ℤ) = g (i : ℤ) (j : ℤ) (k : ℤ) := by
    apply foldl_keep
    intro g gn hgn
    apply flipStep_frame
    intro hcontra
    obtain ⟨m, hm, hmeq⟩ := List.mem_map.mp hgn
    have hmlt : m < x * y * z - gn0 - 1 := List.mem_range.mp hm
    have hgnlt : gn < x * y * z := by omega
    have : gn = gn0 := by
      apply gidx_inj x y z gn gn0 hxz hgnlt hlt
      rw [hcontra, hcell]
    omega
  rw [hsuf]
  rw [flipStep_self x y z _ gn0 _ _ _ hcell]
  rw [hpre]

/-!
Claim C2: flipGrid and the flat-index decomposition.
-/

/-- C2 counterexample: on a 2 by 1 by 1 grid holding the value of its own
first index, the cell (1,0,0) is never visited by the flat-index loop of
flipGrid, so its value stays 1 instead of becoming the negation -1.  This
refutes the claim that flipGrid negates every cell for every dimensions. -/
theorem C2_counterexample :
    flipGrid (fun i _ _ => (i : ℝ)) 2 1 1 1 0 0 = 1 ∧
    ¬ (flipGrid (fun i _ _ => (i : ℝ)) 2 1 1 1 0 0 =
        -((fun i _ _ => (i : ℝ)) (1 : ℤ) 0 0)) := by
  have h2 : List.range (2 * 1 * 1) = [0, 1] := rfl
  constructor
  · unfold flipGrid
    rw [h2]
    simp only [List.foldl_cons, List.foldl_nil]
    unfold flipStep gidx setCell
    norm_num
  · unfold flipGrid
    rw [h2]
    simp only [List.foldl_cons, List.foldl_nil]
    unfold flipStep gidx setCell
    norm_num

/-- C2 (amended): whenever the x and z dimensions agree (in particular on
every cubic grid), flipGrid replaces the value of every in-domain cell by
exactly its negation.  For x different from z the flat-index decomposition
(gn % (x*y)) % z does not cover the domain and the original claim fails. -/
theorem C2_flipGrid_negates (D : FGrid) (x y z : ℕ) (i j k : ℤ)
    (hxz : x = z) (hi0 : 0 ≤ i) (hix : i < (x : ℤ)) (hj0 : 0 ≤ j)
    (hjy : j < (y : ℤ)) (hk0 : 0 ≤ k) (hkz : k < (z : ℤ)) :
    flipGrid D x y z i j k = -(D i j k) := by
  have hi' : i = ((i.toNat : ℕ) : ℤ) := (Int.toNat_of_nonneg hi0).symm
  have hj' : j = ((j.toNat : ℕ) : ℤ) := (Int.toNat_of_nonneg hj0).symm
  have hk' : k = ((k.toNat : ℕ) : ℤ) := (Int.toNat_of_nonneg hk0).symm
  rw [hi', hj', hk']
  exact flipGrid_at D x y z i.toNat j.toNat k.toNat hxz
    (by omega) (by omega) (by omega)

/-- C2 witness: the amended theorem applied on the 1 by 1 by 1 grid with
constant value 5 at its only cell. -/
theorem C2_witness :
    (1 : ℕ) = 1 ∧ (0 : ℤ) < (1 : ℕ) ∧
    flipGrid (fun _ _ _ => (5 : ℝ)) 1 1 1 0 0 0 = -((5 : ℝ)) :=
  ⟨rfl, by norm_num,
   C2_flipGrid_negates (fun _ _ _ => (5 : ℝ)) 1 1 1 0 0 0 rfl (by norm_num)
     (by norm_num) (by norm_num) (by norm_num) (by norm_num) (by norm_num)⟩

/-!
Claim C9: solve only modifies the divergence field.
-/

/-- C9: solve changes only the divergence field D of the macgrid (by the
flipGrid negation pass); the pressure P, the three face-velocity fields,
the markers A and the level set L are returned unchanged, and
solveConjugateGradient only produces its three locally allocated grids,
never touching the macgrid pressure. -/
theorem C9_solve_frame (fluidVal : ℝ) (m : macgrid) (subcell : ℕ) :
    (solve fluidVal m subcell).P = m.P ∧
    (solve fluidVal m subcell).u_x = m.u_x ∧
    (solve fluidVal m subcell).u_y = m.u_y ∧
    (solve fluidVal m subcell).u_z = m.u_z ∧
    (solve fluidVal m subcell).A = m.A ∧
    (solve fluidVal m subcell).L = m.L ∧
    (solve fluidVal m subcell).D = flipGrid m.D m.dimx m.dimy m.dimz :=
  ⟨rfl, rfl, rfl, rfl, rfl, rfl, rfl⟩

/-!
Claim C4: positivity of the stored preconditioner on FLUID cells.
-/

/-- bpStep away from its own cell is the identity. -/
theorem bpStep_frame (fv : ℝ) (m : macgrid) (sc : ℕ) (pc : FGrid) (gn : ℕ) (a b c : ℤ)
    (h : gidx m.dimx m.dimy m.dimz gn ≠ (a, b, c)) :
    bpStep fv m sc pc gn a b c = pc a b c := by
  unfold bpStep
  simp only
  split
  · split
    · apply setCell_ne
      intro hc
      apply h
      rw [hc.1, hc.2.1, hc.2.2]
    · rfl
  · rfl

/-- bpStep at its own cell writes a strictly positive value whenever the
cell is FLUID and its matrix diagonal is strictly positive: the clamped
energy e is at least a quarter of the diagonal, so 1/sqrt(e) > 0. -/
theorem bpStep_pos (fv : ℝ) (m : macgrid) (sc : ℕ) (pc : FGrid) (gn : ℕ) (a b c : ℤ)
    (h : gidx m.dimx m.dimy m.dimz gn = (a, b, c))
    (hf : m.A a b c = CellType.FLUID)
    (hd : 0 < ADiag m.A m.L a b c m.dimx m.dimy m.dimz sc) :
    0 < bpStep fv m sc pc gn a b c := by
  unfold bpStep
  rw [h]
  simp only [hf, if_true, hd, setCell_eq]
  have he : ∀ e : ℝ, 0 < e → 0 < 1 / Real.sqrt e := by
    intro e hpos
    apply div_pos one_pos
    exact Real.sqrt_pos.mpr hpos
  apply he
  split
  · exact hd
  · linarith [not_lt.mp (by assumption :
      ¬ (ADiag m.A m.L a b c m.dimx m.dimy m.dimz sc -
          ARef m.A (a - 1) b c a b c m.dimx m.dimy m.dimz *
            PRef fv pc (a - 1) b c m.dimx m.dimy m.dimz *
            (ARef m.A (a - 1) b c a b c m.dimx m.dimy m.dimz *
             PRef fv pc (a - 1) b c m.dimx m.dimy m.dimz) -
          ARef m.A a (b - 1) c a b c m.dimx m.dimy m.dimz *
            PRef fv pc a (b - 1) c m.dimx m.dimy m.dimz *
            (ARef m.A a (b - 1) c a b c m.dimx m.dimy m.dimz *
             PRef fv pc a (b - 1) c m.dimx m.dimy m.dimz) -
          ARef m.A a b (c - 1) a b c m.dimx m.dimy m.dimz *
            PRef fv pc a b (c - 1) m.dimx m.dimy m.dimz *
            (ARef m.A a b (c - 1) a b c m.dimx m.dimy m.dimz *
             PRef fv pc a b (c - 1) m.dimx m.dimy m.dimz) <
        0.25 * ADiag m.A m.L a b c m.dimx m.dimy m.dimz sc))]

/-- C4 counterexample: on the 1 by 1 by 1 grid whose single cell is
FLUID, every neighbor is out of the domain, so the diagonal is 0 and
buildPreconditioner never writes the cell: the stored value stays 0,
which is not strictly positive.  This refutes the claim as universally
stated. -/
theorem C4_counterexample :
    ¬ (0 < buildPreconditioner 1 zeroF
        (macgrid.mk 1 1 1 zeroF zeroF zeroF zeroF zeroF zeroF
          (fun _ _ _ => CellType.FLUID)) 0 0 0 0) ∧
    (fun _ _ _ => CellType.FLUID) (0 : ℤ) (0 : ℤ) (0 : ℤ) = CellType.FLUID := by
  constructor
  · have h1 : List.range (1 * 1 * 1) = [0] := rfl
    unfold buildPreconditioner
    simp only [h1, List.foldl_cons, List.foldl_nil]
    unfold bpStep gidx ADiag ARef PRef faceNbrs setCell zeroF
    norm_num
  · rfl

/-- C4 (amended): for grids with matching x and z dimensions (covering
every cubic grid), buildPreconditioner started from the all-zero grid
stores a strictly positive value at every FLUID cell whose matrix
diagonal ADiag is strictly positive.  FLUID cells with non-positive
diagonal (possible, e.g. a fully enclosed single cell) keep the initial
value 0, and for x different from z some cells are never visited, which
is what the counterexample exploits. -/
theorem C4_preconditioner_pos (fv : ℝ) (m : macgrid) (sc : ℕ) (i j k : ℤ)
    (hxz : m.dimx = m.dimz)
    (hi0 : 0 ≤ i) (hix : i < (m.dimx : ℤ)) (hj0 : 0 ≤ j) (hjy : j < (m.dimy : ℤ))
    (hk0 : 0 ≤ k) (hkz : k < (m.dimz : ℤ))
    (hf : m.A i j k = CellType.FLUID)
    (hd : 0 < ADiag m.A m.L i j k m.dimx m.dimy m.dimz sc) :
    0 < buildPreconditioner fv zeroF m sc i j k := by
  have hi' : i = ((i.toNat : ℕ) : ℤ) := (Int.toNat_of_nonneg hi0).symm
  have hj' : j = ((j.toNat : ℕ) : ℤ) := (Int.toNat_of_nonneg hj0).symm
  have hk' : k = ((k.toNat : ℕ) : ℤ) := (Int.toNat_of_nonneg hk0).symm
  rw [hi', hj', hk'] at hf hd ⊢
  set x := m.dimx with hx
  set y := m.dimy with hy
  set z := m.dimz with hz
  have hi2 : i.toNat < x := by omega
  have hj2 : j.toNat < y := by omega
  have hk2 : k.toNat < z := by omega
  set gn0 := genc x y i.toNat j.toNat k.toNat with hgn0
  have hlt := genc_lt x y z i.toNat j.toNat k.toNat hxz hi2 hj2 hk2
  have hcell := gidx_genc x y z i.toNat j.toNat k.toNat hxz hi2 hj2 hk2
  rw [← hgn0] at hcell hlt
  unfold buildPreconditioner
  rw [← hx, ← hy, ← hz]
  rw [foldl_range_split (bpStep fv m sc) zeroF (x * y * z) gn0 hlt]
  have hsuf : ∀ g : FGrid,
      (((List.range (x * y * z - gn0 - 1)).map (fun m2 => (gn0 + 1) + m2)).foldl
        (bpStep fv m sc) g) ((i.toNat : ℕ) : ℤ) ((j.toNat : ℕ) : ℤ) ((k.toNat : ℕ) : ℤ) =
        g ((i.toNat : ℕ) : ℤ) ((j.toNat : ℕ) : ℤ) ((k.toNat : ℕ) : ℤ) := by
    apply foldl_keep
    intro g gn hgn
    apply bpStep_frame
    rw [← hx, ← hy, ← hz]
    intro hcontra
    obtain ⟨m2, hm2, hmeq⟩ := List.mem_map.mp hgn
    have hmlt : m2 < x * y * z - gn0 - 1 := List.mem_range.mp hm2
    have hgnlt : gn < x * y * z := by omega
    have : gn = gn0 := by
      apply gidx_inj x y z gn gn0 hxz hgnlt hlt
      rw [hcontra, hcell]
    omega
  rw [hsuf]
  apply bpStep_pos
  · rw [← hx, ← hy, ← hz]
    exact hcell
  · exact hf
  · exact hd

/-- C4 witness: the amended theorem applied to the all-FLUID 2 by 2 by 2
grid at cell (0,0,0), whose diagonal is 6 - 3 = 3 > 0 with subcell off. -/
theorem C4_witness :
    0 < ADiag (fun _ _ _ => CellType.FLUID) zeroF 0 0 0 2 2 2 0 ∧
    0 < buildPreconditioner 1 zeroF
      (macgrid.mk 2 2 2 zeroF zeroF zeroF zeroF zeroF zeroF
        (fun _ _ _ => CellType.FLUID)) 0 0 0 0 := by
  have hd : 0 < ADiag (fun _ _ _ => CellType.FLUID) zeroF 0 0 0 2 2 2 0 := by
    have hne : CellType.FLUID ≠ CellType.SOLID := fun h => by cases h
    unfold ADiag faceNbrs
    norm_num [hne]
  refine ⟨hd, ?_⟩
  exact C4_preconditioner_pos 1
    (macgrid.mk 2 2 2 zeroF zeroF zeroF zeroF zeroF zeroF (fun _ _ _ => CellType.FLUID))
    0 0 0 0 rfl (by norm_num) (by norm_num) (by norm_num) (by norm_num)
    (by norm_num) (by norm_num) rfl hd

/-!
Claim C5: what PRef tests.
-/

/-- The behavior the specification ascribes to the preconditioner helper
P: return 0 at cells outside the domain and at cells whose marker in the
cell-type grid A is not FLUID, and the stored preconditioner value at
in-domain FLUID cells.  Stated from the claim, for comparison with the
source's PRef. -/
noncomputable def PRefSpec (A : IGrid) (p : FGrid) (i j k : ℤ) (x y z : ℕ) : ℝ :=
  if i < 0 ∨ i > (x : ℤ) - 1 ∨ j < 0 ∨ j > (y : ℤ) - 1 ∨ k < 0 ∨ k > (z : ℤ) - 1 ∨
     A i j k ≠ CellType.FLUID then 0
  else p i j k

/-- C5: whatever numeric value the FLUID enum constant converts to, the
source's PRef disagrees with the specified helper on some in-domain
FLUID cell: PRef compares the stored float of the preconditioner grid
itself against the enum constant instead of consulting the marker grid,
so any stored value different from that constant (and from 0) is
reported as 0 where the specification requires the stored value. -/
theorem C5_PRef_checks_wrong_grid :
    ∀ c : ℝ, ∃ v : ℝ, v ≠ 0 ∧
      PRef c (fun _ _ _ => v) 0 0 0 1 1 1 = 0 ∧
      PRefSpec (fun _ _ _ => CellType.FLUID) (fun _ _ _ => v) 0 0 0 1 1 1 = v := by
  intro c
  by_cases hc : c = 1
  · refine ⟨2, by norm_num, ?_, ?_⟩
    · unfold PRef
      rw [if_pos]
      right; right; right; right; right; right
      rw [hc]; norm_num
    · unfold PRefSpec
      rw [if_neg]
      simp
  · refine ⟨1, by norm_num, ?_, ?_⟩
    · unfold PRef
      rw [if_pos]
      right; right; right; right; right; right
      exact fun h => hc h.symm
    · unfold PRefSpec
      rw [if_neg]
      simp

/-!
Claim C1: the conjugate-gradient solve.
-/

/-- Generic form of the per-cell write pattern of the solver loops: if a
step never touches foreign cells, the final value at a cell is the step
applied at that cell's flat index to the prefix state (x = z case). -/
theorem foldl_write_at (s : FGrid → ℕ → FGrid) (x y z : ℕ) (hxz : x = z)
    (hframe : ∀ g gn a b c, gidx x y z gn ≠ (a, b, c) → s g gn a b c = g a b c)
    (i j k : ℕ) (hi : i < x) (hj : j < y) (hk : k < z) (g0 : FGrid) :
    ((List.range (x * y * z)).foldl s g0) (i : ℤ) (j : ℤ) (k : ℤ) =
      s ((List.range (genc x y i j k)).foldl s g0) (genc x y i j k)
        (i : ℤ) (j : ℤ) (k : ℤ) := by
  set gn0 := genc x y i j k with hgn0
  have hlt := genc_lt x y z i j k hxz hi hj hk
  have hcell := gidx_genc x y z i j k hxz hi hj hk
  rw [← hgn0] at hcell hlt
  rw [foldl_range_split s g0 (x * y * z) gn0 hlt]
  apply foldl_keep
  intro g gn hgn
  apply hframe
  intro hcontra
  obtain ⟨m2, hm2, hmeq⟩ := List.mem_map.mp hgn
  have hmlt : m2 < x * y * z - gn0 - 1 := List.mem_range.mp hm2
  have hgnlt : gn < x * y * z := by omega
  have : gn = gn0 := by
    apply gidx_inj x y z gn gn0 hxz hgnlt hlt
    rw [hcontra, hcell]
  omega

/-- axStep away from its own cell is the identity. -/
theorem axStep_frame (A : IGrid) (L X : FGrid) (x y z sc : ℕ) :
    ∀ (t : FGrid) (gn : ℕ) (a b c : ℤ), gidx x y z gn ≠ (a, b, c) →
      axStep A L X x y z sc t gn a b c = t a b c := by
  intro t gn a b c h
  unfold axStep
  split
  · apply setCell_ne
    intro hc
    apply h
    rw [hc.1, hc.2.1, hc.2.2]
  · apply setCell_ne
    intro hc
    apply h
    rw [hc.1, hc.2.1, hc.2.2]

/-- The value computeAx stores at an in-domain FLUID cell (x = z case). -/
theorem computeAx_fluid_at (A : IGrid) (L X t : FGrid) (x y z sc : ℕ) (i j k : ℕ)
    (hxz : x = z) (hi : i < x) (hj : j < y) (hk : k < z)
    (hA : A (i : ℤ) (j : ℤ) (k : ℤ) = CellType.FLUID) :
    computeAx A L X t x y z sc (i : ℤ) (j : ℤ) (k : ℤ) =
      (6 * X (i : ℤ) (j : ℤ) (k : ℤ)
        - xRef A L X (i : ℤ) (j : ℤ) (k : ℤ) ((i : ℤ) + 1) (j : ℤ) (k : ℤ) x y z sc
        - xRef A L X (i : ℤ) (j : ℤ) (k : ℤ) ((i : ℤ) - 1) (j : ℤ) (k : ℤ) x y z sc
        - xRef A L X (i : ℤ) (j : ℤ) (k : ℤ) (i : ℤ) ((j : ℤ) + 1) (k : ℤ) x y z sc
        - xRef A L X (i : ℤ) (j : ℤ) (k : ℤ) (i : ℤ) ((j : ℤ) - 1) (k : ℤ) x y z sc
        - xRef A L X (i : ℤ) (j : ℤ) (k : ℤ) (i : ℤ) (j : ℤ) ((k : ℤ) + 1) x y z sc
        - xRef A L X (i : ℤ) (j : ℤ) (k : ℤ) (i : ℤ) (j : ℤ) ((k : ℤ) - 1) x y z sc) /
      (1 / (max (max (x : ℝ) (y : ℝ)) (z : ℝ) * max (max (x : ℝ) (y : ℝ)) (z : ℝ))) := by
  unfold computeAx
  rw [foldl_write_at (axStep A L X x y z sc) x y z hxz (axStep_frame A L X x y z sc)
    i j k hi hj hk t]
  unfold axStep
  rw [gidx_genc x y z i j k hxz hi hj hk]
  simp only [hA, if_pos]
  exact setCell_eq _ _ _ _ _

/-- xRef of the all-zero grid is 0 in every branch. -/
theorem xRef_zeroX (A : IGrid) (L : FGrid) (fi fj fk pi pj pk : ℤ) (x y z sc : ℕ) :
    xRef A L zeroF fi fj fk pi pj pk x y z sc = 0 := by
  unfold xRef zeroF
  simp only
  split
  · rfl
  · split
    · rfl
    · split
      · exact mul_zero _
      · rfl

/-- The uniform FLUID 8 by 8 by 8 scenario of the claim: every marker
FLUID, divergence -1 everywhere (so the negated right-hand side b is the
constant 1), pressure initialized to 0, level set -1 (inside liquid),
face velocities 0. -/
noncomputable def m8 : macgrid :=
  macgrid.mk 8 8 8 zeroF zeroF zeroF zeroF
    (fun _ _ _ => -1) (fun _ _ _ => -1) (fun _ _ _ => CellType.FLUID)

set_option maxRecDepth 4000

/-- C1: on the claim's own scenario the solver performs no
conjugate-gradient iterations at all.  solve returns the pressure grid
bit-for-bit unchanged (still 0 everywhere), so the residual A p - b at
the FLUID cell (0,0,0) is 0 - 1, whose absolute value 1 is far above the
1e-4 tolerance the claim requires.  (solveConjugateGradient only
computes z = A x and r = b - A x into local grids and returns.) -/
theorem C1_pcg_performs_no_iterations :
    (solve 1 m8 0).P = m8.P ∧
    (solve 1 m8 0).P 0 0 0 = 0 ∧
    (solve 1 m8 0).D 0 0 0 = 1 ∧
    computeAx m8.A m8.L ((solve 1 m8 0).P) zeroF 8 8 8 0 0 0 0 = 0 ∧
    ¬ (|computeAx m8.A m8.L ((solve 1 m8 0).P) zeroF 8 8 8 0 0 0 0 -
        (solve 1 m8 0).D 0 0 0| < 1e-4) := by
  have hP : (solve 1 m8 0).P = m8.P := rfl
  have hD : (solve 1 m8 0).D = flipGrid m8.D 8 8 8 := rfl
  have hD000 : (solve 1 m8 0).D 0 0 0 = 1 := by
    rw [hD]
    have := flipGrid_at m8.D 8 8 8 0 0 0 rfl (by norm_num) (by norm_num) (by norm_num)
    simp only [Nat.cast_zero] at this
    rw [this]
    norm_num [m8]
  have hAx : computeAx m8.A m8.L ((solve 1 m8 0).P) zeroF 8 8 8 0 0 0 0 = 0 := by
    rw [hP]
    have hA0 : m8.A ((0 : ℕ) : ℤ) ((0 : ℕ) : ℤ) ((0 : ℕ) : ℤ) = CellType.FLUID := rfl
    have h := computeAx_fluid_at m8.A m8.L m8.P zeroF 8 8 8 0 0 0 0 rfl
      (by norm_num) (by norm_num) (by norm_num) hA0
    simp only [Nat.cast_zero] at h
    rw [h]
    have hz : m8.P = zeroF := rfl
    rw [hz, xRef_zeroX, xRef_zeroX, xRef_zeroX, xRef_zeroX, xRef_zeroX, xRef_zeroX]
    unfold zeroF
    norm_num
  refine ⟨hP, by rw [hP]; rfl, hD000, hAx, ?_⟩
  rw [hAx, hD000]
  norm_num

/-!
The particle pipeline of flip.cpp: vectors, particles, scene queries.
-/

/-- A 3-component float vector, the glm vec3 of the source. -/
@[ext]
structure V3 where
  x : ℝ
  y : ℝ
  z : ℝ

noncomputable instance : Add V3 := ⟨fun a b => ⟨a.x + b.x, a.y + b.y, a.z + b.z⟩⟩

noncomputable instance : Sub V3 := ⟨fun a b => ⟨a.x - b.x, a.y - b.y, a.z - b.z⟩⟩

noncomputable instance : Neg V3 := ⟨fun a => ⟨-a.x, -a.y, -a.z⟩⟩

instance : Zero V3 := ⟨⟨0, 0, 0⟩⟩

noncomputable instance : SMul ℝ V3 := ⟨fun c v => ⟨c * v.x, c * v.y, c * v.z⟩⟩

theorem V3.add_def (a b : V3) : a + b = ⟨a.x + b.x, a.y + b.y, a.z + b.z⟩ := rfl

theorem V3.sub_def (a b : V3) : a - b = ⟨a.x - b.x, a.y - b.y, a.z - b.z⟩ := rfl

theorem V3.neg_def (a : V3) : -a = ⟨-a.x, -a.y, -a.z⟩ := rfl

theorem V3.smul_def (c : ℝ) (v : V3) : c • v = ⟨c * v.x, c * v.y, c * v.z⟩ := rfl

theorem V3.zero_def : (0 : V3) = ⟨0, 0, 0⟩ := rfl

/-- Componentwise minimum, the glm min on vec3. -/
noncomputable def vmin (a b : V3) : V3 := ⟨min a.x b.x, min a.y b.y, min a.z b.z⟩

/-- Componentwise maximum, the glm max on vec3. -/
noncomputable def vmax (a b : V3) : V3 := ⟨max a.x b.x, max a.y b.y, max a.z b.z⟩

/-- The constant vector, glm vec3 of one scalar. -/
def vconst (c : ℝ) : V3 := ⟨c, c, c⟩

/-- Dot product of the source. -/
noncomputable def dot (a b : V3) : ℝ := a.x * b.x + a.y * b.y + a.z * b.z

/-- Squared length. -/
noncomputable def sqlen (v : V3) : ℝ := v.x * v.x + v.y * v.y + v.z * v.z

/-- glm length: the Euclidean norm. -/
noncomputable def len (v : V3) : ℝ := Real.sqrt (sqlen v)

/-- glm normalize: the vector divided by its length.  On the zero vector
the C++ code produces NaN; the callers in the source always guard this
case with the self-equality NaN test, which the embedding renders as an
explicit equality test on the endpoints. -/
noncomputable def normalize (v : V3) : V3 := (1 / len v) • v

theorem sqlen_nonneg (v : V3) : 0 ≤ sqlen v := by
  unfold sqlen
  nlinarith [sq_nonneg v.x, sq_nonneg v.y, sq_nonneg v.z]

theorem len_nonneg (v : V3) : 0 ≤ len v := Real.sqrt_nonneg _

theorem sqlen_eq_zero_iff (v : V3) : sqlen v = 0 ↔ v = 0 := by
  constructor
  · intro h
    unfold sqlen at h
    ext <;> simp only [V3.zero_def] <;>
      nlinarith [sq_nonneg v.x, sq_nonneg v.y, sq_nonneg v.z]
  · intro h
    rw [h]
    unfold sqlen
    simp [V3.zero_def]

theorem len_eq_zero_iff (v : V3) : len v = 0 ↔ v = 0 := by
  unfold len
  rw [Real.sqrt_eq_zero (sqlen_nonneg v)]
  exact sqlen_eq_zero_iff v

theorem sqlen_smul (c : ℝ) (v : V3) : sqlen (c • v) = c ^ 2 * sqlen v := by
  unfold sqlen
  rw [V3.smul_def]
  ring

theorem len_smul (c : ℝ) (v : V3) : len (c • v) = |c| * len v := by
  unfold len
  rw [sqlen_smul, Real.sqrt_mul (sq_nonneg c), Real.sqrt_sq_eq_abs]

theorem len_normalize (v : V3) (h : v ≠ 0) : len (normalize v) = 1 := by
  have hlen : len v ≠ 0 := fun hc => h ((len_eq_zero_iff v).mp hc)
  unfold normalize
  rw [len_smul]
  rw [abs_of_nonneg (div_nonneg zero_le_one (len_nonneg v))]
  field_simp

theorem normalize_of_len_one (v : V3) (h : len v = 1) : normalize v = v := by
  unfold normalize
  rw [h]
  ext <;> simp [V3.smul_def]

theorem V3.sub_eq_zero_iff (a b : V3) : a - b = 0 ↔ a = b := by
  rw [V3.sub_def, V3.zero_def]
  constructor
  · intro h
    have hx := congrArg V3.x h
    have hy := congrArg V3.y h
    have hz := congrArg V3.z h
    simp only at hx hy hz
    ext <;> linarith
  · intro h
    rw [h]
    ext <;> simp

/-- The particle record: the fields of the source Particle that the
embedded pipeline functions read or write (position p, velocity u,
previous position pt, previous velocity ut, surface normal n, type). -/
structure Particle where
  p : V3
  u : V3
  pt : V3
  ut : V3
  n : V3
  ptype : CellType

instance : Inhabited Particle := ⟨⟨0, 0, 0, 0, 0, CellType.FLUID⟩⟩

/-- A ray-geometry intersection record (rayCore Intersection). -/
structure Intersection where
  hit : Bool
  point : V3
  normal : V3

/-- Modelled from the spec: the SceneQuery contract of section 6 consumed
by the core.  The Scene implementation (ray casting, BVH,
point-inside-solid) is outside the provided sources, so it enters the
embedding as an oracle of query functions: IntersectSolidGeoms taking the
ray origin and direction, and CheckPointInsideSolidGeom. -/
structure SceneOracle where
  intersectSolid : V3 → V3 → Intersection
  insideSolid : V3 → Bool

/-- CheckParticleSolidConstraints of the source, per particle.  The
float test raynulltest==raynulltest on length(normalize(p - pt)) fails
exactly when p = pt (0/0 gives NaN, and NaN is not equal to itself), so
the embedding guards the body with that equality test. -/
noncomputable def CheckParticleSolidConstraintsOne (scene : SceneOracle)
    (maxd stepsize : ℝ) (part : Particle) : Particle :=
  if part.ptype = CellType.FLUID then
    if part.p = part.pt then part
    else
      let origin := maxd • part.pt
      let dir := normalize (part.p - part.pt)
      let hit := scene.intersectSolid origin dir
      let udir := len part.ut
      let part1 :=
        if hit.hit = true then
          let solidDistance := len (origin - hit.point)
          let velocityDistance := len (part.p - part.pt) * maxd
          if solidDistance < velocityDistance then
            { part with
                p := (1 / maxd) • (origin + (0.9 * solidDistance) • dir),
                u := udir • normalize ((2 * dot dir hit.normal) • hit.normal - normalize dir) }
          else part
        else part
      if scene.insideSolid (maxd • part1.p) = true then
        { part1 with
            u := -(udir • normalize dir),
            p := part1.pt + stepsize • (-(udir • normalize dir)) }
      else part1
  else part

/-- The whole CheckParticleSolidConstraints pass: a parallel-for over
the particle array with per-particle disjoint writes. -/
noncomputable def CheckParticleSolidConstraints (scene : SceneOracle)
    (maxd stepsize : ℝ) (parts : List Particle) : List Particle :=
  parts.map (CheckParticleSolidConstraintsOne scene maxd stepsize)

/-- The raycast-and-place loop body of AdjustParticlesStuckInSolids for
one stuck particle.  At this point the source has stored the original
position into pt and ProjectPointsToSurface (an external level-set query
outside the provided sources) has moved p; the particle enters this
function in that state.  The raynulltest self-equality NaN test skips
the body exactly when the projected position equals the original one. -/
noncomputable def AdjustStuckParticleRay (scene : SceneOracle) (maxd : ℝ)
    (part : Particle) : Particle :=
  if part.p = part.pt then part
  else
    let origin := maxd • part.pt
    let dir := normalize (part.p - part.pt)
    let d := len (part.p - part.pt)
    let hit := scene.intersectSolid origin dir
    let nearestDistance := len (origin - hit.point)
    { part with
        p := (1 / maxd) • (origin + (1.05 * nearestDistance) • dir),
        u := d • normalize dir }

/-- ApplyExternalForces of the source: for every particle, regardless of
its type, add f * stepsize to the velocity for each external force f, in
order. -/
noncomputable def ApplyExternalForces (forces : List V3) (stepsize : ℝ)
    (parts : List Particle) : List Particle :=
  parts.map (fun part =>
    { part with u := forces.foldl (fun u f => u + stepsize • f) part.u })

/-- Sum of a list of vectors. -/
noncomputable def vsum (l : List V3) : V3 := l.foldl (fun a b => a + b) 0

theorem V3.add_zero (a : V3) : a + 0 = a := by
  rw [V3.add_def, V3.zero_def]
  ext <;> simp

theorem V3.add_assoc (a b c : V3) : a + b + c = a + (b + c) := by
  rw [V3.add_def, V3.add_def, V3.add_def, V3.add_def]
  ext <;> (simp only) <;> ring

theorem V3.smul_zero (c : ℝ) : c • (0 : V3) = 0 := by
  rw [V3.zero_def, V3.smul_def]
  ext <;> simp

theorem V3.smul_add (c : ℝ) (a b : V3) : c • (a + b) = c • a + c • b := by
  rw [V3.add_def, V3.smul_def, V3.smul_def, V3.smul_def, V3.add_def]
  ext <;> (simp only) <;> ring

theorem vsum_shift (l : List V3) (b : V3) : l.foldl (fun a v => a + v) b = b + vsum l := by
  induction l generalizing b with
  | nil => simp [vsum, V3.add_zero]
  | cons hd tl ih =>
    unfold vsum
    simp only [List.foldl_cons]
    rw [ih (b + hd), ih (0 + hd)]
    rw [V3.add_assoc]
    congr 1
    have h0 : (0 : V3) + hd = hd := by
      rw [V3.add_def, V3.zero_def]
      ext <;> simp
    rw [h0]

theorem forces_foldl (l : List V3) (s : ℝ) (a : V3) :
    l.foldl (fun u f => u + s • f) a = a + s • vsum l := by
  induction l generalizing a with
  | nil => simp [vsum, V3.add_zero, V3.smul_zero]
  | cons hd tl ih =>
    simp only [List.foldl_cons]
    rw [ih]
    unfold vsum
    simp only [List.foldl_cons]
    rw [vsum_shift tl (0 + hd)]
    have h0 : (0 : V3) + hd = hd := by
      rw [V3.add_def, V3.zero_def]
      ext <;> simp
    rw [h0, V3.smul_add, V3.add_assoc]
    rfl

/-!
Claim C10: external forces are applied to every particle.
-/

/-- C10: ApplyExternalForces adds stepsize times each external force to
the velocity of every particle in the array, with no test on the
particle type: the result at each index keeps every field except u,
whose new value is the old velocity plus stepsize times the sum of the
forces.  In particular a SOLID marker particle has its velocity changed
whenever stepsize times the force total is nonzero. -/
theorem C10_forces_hit_all_particles (forces : List V3) (stepsize : ℝ)
    (parts : List Particle) (m : ℕ) (part : Particle)
    (hm : parts[m]? = some part) :
    (ApplyExternalForces forces stepsize parts)[m]? =
      some { part with u := part.u + stepsize • vsum forces } ∧
    (stepsize • vsum forces ≠ 0 →
      part.u + stepsize • vsum forces ≠ part.u) := by
  constructor
  · unfold ApplyExternalForces
    rw [List.getElem?_map, hm, Option.map_some']
    rw [forces_foldl]
  · intro hnz hc
    apply hnz
    have hx := congrArg V3.x hc
    have hy := congrArg V3.y hc
    have hz := congrArg V3.z hc
    rw [V3.add_def] at hx hy hz
    simp only at hx hy hz
    rw [V3.zero_def]
    ext <;> (simp only) <;> linarith

/-- C10 witness: a single SOLID marker particle under gravity has its
velocity shifted by stepsize times the force. -/
theorem C10_witness :
    ([(⟨0, 0, 0, 0, 0, CellType.SOLID⟩ : Particle)][0]? =
      some (⟨0, 0, 0, 0, 0, CellType.SOLID⟩ : Particle)) ∧
    (ApplyExternalForces [⟨0, -9.81, 0⟩] (1 / 30)
        [⟨0, 0, 0, 0, 0, CellType.SOLID⟩])[0]? =
      some { (⟨0, 0, 0, 0, 0, CellType.SOLID⟩ : Particle) with
              u := (0 : V3) + (1 / 30 : ℝ) • vsum [⟨0, -9.81, 0⟩] } :=
  ⟨rfl, (C10_forces_hit_all_particles [⟨0, -9.81, 0⟩] (1 / 30)
      [⟨0, 0, 0, 0, 0, CellType.SOLID⟩] 0 ⟨0, 0, 0, 0, 0, CellType.SOLID⟩ rfl).1⟩

/-!
Claim C8: degenerate (NaN-direction) rays skip the particle.
-/

/-- C8: a FLUID particle whose position equals its stored previous
position produces a NaN ray direction; the self-equality test fails and
both CheckParticleSolidConstraints and the raycast-and-place branch of
AdjustParticlesStuckInSolids leave the particle exactly as it was. -/
theorem C8_nan_ray_skips_particle (scene : SceneOracle) (maxd stepsize : ℝ)
    (part : Particle) (hf : part.ptype = CellType.FLUID) (h : part.p = part.pt) :
    CheckParticleSolidConstraintsOne scene maxd stepsize part = part ∧
    AdjustStuckParticleRay scene maxd part = part := by
  constructor
  · unfold CheckParticleSolidConstraintsOne
    rw [if_pos hf, if_pos h]
  · unfold AdjustStuckParticleRay
    rw [if_pos h]

/-- C8 witness: a concrete fluid particle at rest on its previous
position is untouched by both passes. -/
theorem C8_witness :
    CheckParticleSolidConstraintsOne
      (SceneOracle.mk (fun _ _ => ⟨true, 0, 0⟩) (fun _ => true)) 4 (1 / 30)
      ⟨⟨1, 2, 3⟩, ⟨5, 0, 0⟩, ⟨1, 2, 3⟩, ⟨5, 0, 0⟩, 0, CellType.FLUID⟩ =
      ⟨⟨1, 2, 3⟩, ⟨5, 0, 0⟩, ⟨1, 2, 3⟩, ⟨5, 0, 0⟩, 0, CellType.FLUID⟩ ∧
    AdjustStuckParticleRay
      (SceneOracle.mk (fun _ _ => ⟨true, 0, 0⟩) (fun _ => true)) 4
      ⟨⟨1, 2, 3⟩, ⟨5, 0, 0⟩, ⟨1, 2, 3⟩, ⟨5, 0, 0⟩, 0, CellType.FLUID⟩ =
      ⟨⟨1, 2, 3⟩, ⟨5, 0, 0⟩, ⟨1, 2, 3⟩, ⟨5, 0, 0⟩, 0, CellType.FLUID⟩ :=
  C8_nan_ray_skips_particle
    (SceneOracle.mk (fun _ _ => ⟨true, 0, 0⟩) (fun _ => true)) 4 (1 / 30)
    ⟨⟨1, 2, 3⟩, ⟨5, 0, 0⟩, ⟨1, 2, 3⟩, ⟨5, 0, 0⟩, 0, CellType.FLUID⟩ rfl rfl

/-!
Claim C7: placement and velocity reflection on a solid hit.
-/

/-- The reflection of a direction d about the axis of a normal n, the
vector 2 (d . n) n - d that the claim calls the reflection of the ray
direction about the hit normal. -/
noncomputable def axisReflect (n d : V3) : V3 := (2 * dot d n) • n - d

/-- C7: for a FLUID particle with a well-defined ray (p different from
pt) whose ray hits a solid closer than the traveled distance, and whose
post-placement position is not inside a solid, the new position is
(origin + direction * 0.90 * hitDistance) / maxd and the new velocity is
the unit reflection of the ray direction about the hit normal scaled to
exactly the length of the stored previous velocity ut. -/
theorem C7_solid_constraint_reflects (scene : SceneOracle) (maxd stepsize : ℝ)
    (part : Particle) (dir : V3) (hit0 : Intersection) (sd : ℝ)
    (hf : part.ptype = CellType.FLUID)
    (hne : part.p ≠ part.pt)
    (hdir : dir = normalize (part.p - part.pt))
    (hhit0 : hit0 = scene.intersectSolid (maxd • part.pt) dir)
    (hhit : hit0.hit = true)
    (hsd : sd = len (maxd • part.pt - hit0.point))
    (hlt : sd < len (part.p - part.pt) * maxd)
    (hw : axisReflect hit0.normal dir ≠ 0)
    (hout : scene.insideSolid
        (maxd • ((1 / maxd) • (maxd • part.pt + (0.9 * sd) • dir))) = false) :
    (CheckParticleSolidConstraintsOne scene maxd stepsize part).p =
      (1 / maxd) • (maxd • part.pt + (0.9 * sd) • dir) ∧
    (CheckParticleSolidConstraintsOne scene maxd stepsize part).u =
      len part.ut • normalize (axisReflect hit0.normal dir) ∧
    len (CheckParticleSolidConstraintsOne scene maxd stepsize part).u =
      len part.ut := by
  have hsub : part.p - part.pt ≠ 0 := by
    intro hc
    exact hne ((V3.sub_eq_zero_iff part.p part.pt).mp hc)
  have hdirlen : len dir = 1 := by
    rw [hdir]
    exact len_normalize _ hsub
  have hnn : normalize dir = dir := normalize_of_len_one dir hdirlen
  have hbody : CheckParticleSolidConstraintsOne scene maxd stepsize part =
      { part with
          p := (1 / maxd) • (maxd • part.pt + (0.9 * sd) • dir),
          u := len part.ut • normalize (axisReflect hit0.normal dir) } := by
    unfold CheckParticleSolidConstraintsOne
    rw [if_pos hf, if_neg hne]
    simp only [← hdir, ← hhit0, hhit, if_pos, hnn, ← hsd]
    rw [if_pos hlt]
    simp only
    rw [hout]
    simp only [Bool.false_eq_true, if_false]
    unfold axisReflect
    rfl
  rw [hbody]
  refine ⟨rfl, rfl, ?_⟩
  simp only
  rw [len_smul, len_normalize _ hw, mul_one, abs_of_nonneg (len_nonneg part.ut)]

/-- C7 witness: a concrete particle moving along the x axis into a wall
at x = 1 with unit normal pointing back; the ray from the origin hits at
distance 1, closer than the traveled distance 2, the reflected vector is
nonzero, and the placed point is outside the solid. -/
theorem C7_witness :
    len ((⟨1, 0, 0⟩ : V3) - (⟨0, 0, 0⟩ : V3)) * 2 = 2 ∧
    (CheckParticleSolidConstraintsOne
        (SceneOracle.mk (fun _ _ => ⟨true, ⟨1, 0, 0⟩, ⟨-1, 0, 0⟩⟩) (fun _ => false))
        2 (1 / 30)
        ⟨⟨1, 0, 0⟩, ⟨3, 0, 0⟩, ⟨0, 0, 0⟩, ⟨3, 0, 0⟩, 0, CellType.FLUID⟩).u =
      len (⟨3, 0, 0⟩ : V3) •
        normalize (axisReflect (⟨-1, 0, 0⟩ : V3)
          (normalize ((⟨1, 0, 0⟩ : V3) - (⟨0, 0, 0⟩ : V3)))) ∧
    len (CheckParticleSolidConstraintsOne
        (SceneOracle.mk (fun _ _ => ⟨true, ⟨1, 0, 0⟩, ⟨-1, 0, 0⟩⟩) (fun _ => false))
        2 (1 / 30)
        ⟨⟨1, 0, 0⟩, ⟨3, 0, 0⟩, ⟨0, 0, 0⟩, ⟨3, 0, 0⟩, 0, CellType.FLUID⟩).u =
      len ((⟨3, 0, 0⟩ : V3)) := by
  have hsq1 : sqlen (⟨1, 0, 0⟩ : V3) = 1 := by unfold sqlen; norm_num
  have hlen1 : len (⟨1, 0, 0⟩ : V3) = 1 := by unfold len; rw [hsq1]; exact Real.sqrt_one
  have hsubv : (⟨1, 0, 0⟩ : V3) - (⟨0, 0, 0⟩ : V3) = ⟨1, 0, 0⟩ := by
    rw [V3.sub_def]; norm_num
  have hlen10 : len ((⟨1, 0, 0⟩ : V3) - (⟨0, 0, 0⟩ : V3)) = 1 := by rw [hsubv, hlen1]
  have hdirv : normalize ((⟨1, 0, 0⟩ : V3) - (⟨0, 0, 0⟩ : V3)) = ⟨1, 0, 0⟩ := by
    rw [hsubv]
    exact normalize_of_len_one _ hlen1
  have horig : (2 : ℝ) • (⟨0, 0, 0⟩ : V3) = ⟨0, 0, 0⟩ := by
    rw [V3.smul_def]; norm_num
  have hsd0 : len ((2 : ℝ) • (⟨0, 0, 0⟩ : V3) - (⟨1, 0, 0⟩ : V3)) = 1 := by
    rw [horig]
    have : (⟨0, 0, 0⟩ : V3) - (⟨1, 0, 0⟩ : V3) = ⟨-1, 0, 0⟩ := by
      rw [V3.sub_def]; norm_num
    rw [this]
    have : sqlen (⟨-1, 0, 0⟩ : V3) = 1 := by unfold sqlen; norm_num
    unfold len
    rw [this]
    exact Real.sqrt_one
  have hrefl : axisReflect (⟨-1, 0, 0⟩ : V3) (⟨1, 0, 0⟩ : V3) = ⟨1, 0, 0⟩ := by
    unfold axisReflect dot
    rw [V3.smul_def, V3.sub_def]
    norm_num
  have hwit := C7_solid_constraint_reflects
    (SceneOracle.mk (fun _ _ => ⟨true, ⟨1, 0, 0⟩, ⟨-1, 0, 0⟩⟩) (fun _ => false))
    2 (1 / 30)
    ⟨⟨1, 0, 0⟩, ⟨3, 0, 0⟩, ⟨0, 0, 0⟩, ⟨3, 0, 0⟩, 0, CellType.FLUID⟩
    (⟨1, 0, 0⟩ : V3) ⟨true, ⟨1, 0, 0⟩, ⟨-1, 0, 0⟩⟩ 1
    rfl
    (by
      intro hc
      have := congrArg V3.x hc
      simp only at this
      norm_num at this)
    (by simp only; rw [hdirv])
    rfl
    rfl
    (by simp only; rw [hsd0])
    (by simp only; rw [hlen10]; norm_num)
    (by
      rw [hrefl]
      intro hc
      have := congrArg V3.x hc
      rw [V3.zero_def] at this
      simp only at this
      norm_num at this)
    rfl
  refine ⟨by rw [hlen10]; norm_num, ?_, ?_⟩
  · rw [hwit.2.1]
    simp only
    rw [hdirv]
  · rw [hwit.2.2]

/-!
Claim C6: ExtrapolateVelocity is idempotent.
-/

/-- The face marks for the x-velocity field: true at faces adjacent to at
least one FLUID cell. -/
def xmark (x : ℕ) (A : IGrid) : ℤ → ℤ → ℤ → Bool :=
  fun i j k => decide ((0 < i ∧ A (i - 1) j k = CellType.FLUID) ∨
                       (i < (x : ℤ) ∧ A i j k = CellType.FLUID))

/-- The wall marks for the x-velocity field: true at faces adjacent only
to SOLID cells or the outside of the domain. -/
def xwallmark (x : ℕ) (A : IGrid) : ℤ → ℤ → ℤ → Bool :=
  fun i j k => decide ((i ≤ 0 ∨ A (i - 1) j k = CellType.SOLID) ∧
                       ((x : ℤ) ≤ i ∨ A i j k = CellType.SOLID))

/-- The face marks for the y-velocity field. -/
def ymark (y : ℕ) (A : IGrid) : ℤ → ℤ → ℤ → Bool :=
  fun i j k => decide ((0 < j ∧ A i (j - 1) k = CellType.FLUID) ∨
                       (j < (y : ℤ) ∧ A i j k = CellType.FLUID))

/-- The wall marks for the y-velocity field. -/
def ywallmark (y : ℕ) (A : IGrid) : ℤ → ℤ → ℤ → Bool :=
  fun i j k => decide ((j ≤ 0 ∨ A i (j - 1) k = CellType.SOLID) ∧
                       ((y : ℤ) ≤ j ∨ A i j k = CellType.SOLID))

/-- The face marks for the z-velocity field. -/
def zmark (z : ℕ) (A : IGrid) : ℤ → ℤ → ℤ → Bool :=
  fun i j k => decide ((0 < k ∧ A i j (k - 1) = CellType.FLUID) ∨
                       (k < (z : ℤ) ∧ A i j k = CellType.FLUID))

/-- The wall marks for the z-velocity field. -/
def zwallmark (z : ℕ) (A : IGrid) : ℤ → ℤ → ℤ → Bool :=
  fun i j k => decide ((k ≤ 0 ∨ A i j (k - 1) = CellType.SOLID) ∧
                       ((z : ℤ) ≤ k ∨ A i j k = CellType.SOLID))

/-- One field of the extrapolation pass of the source, written pointwise:
the source runs a parallel-for whose iterations write a face only when
its mark is false and read the velocity only at faces whose mark is true,
so the pass is the pointwise gather below.  ex, ey, ez are the face
extents of the field (x+1,y,z for u_x, etc.), used both for the iterated
domain (after the per-field skip tests) and for the neighbor bounds
x+(n==0), y+(n==1), z+(n==2). -/
noncomputable def extrapolateOne (ex ey ez : ℕ) (mark wallmark : ℤ → ℤ → ℤ → Bool)
    (u : FGrid) : FGrid :=
  fun i j k =>
    if 0 ≤ i ∧ i < (ex : ℤ) ∧ 0 ≤ j ∧ j < (ey : ℤ) ∧ 0 ≤ k ∧ k < (ez : ℤ) ∧
       mark i j k = false ∧ wallmark i j k = true then
      let good := (faceNbrs i j k).filter (fun q =>
        decide (0 ≤ q.1 ∧ q.1 < (ex : ℤ) ∧ 0 ≤ q.2.1 ∧ q.2.1 < (ey : ℤ) ∧
                0 ≤ q.2.2 ∧ q.2.2 < (ez : ℤ)) && mark q.1 q.2.1 q.2.2)
      if good.length ≠ 0 then
        (good.map (fun q => u q.1 q.2.1 q.2.2)).sum / (good.length : ℝ)
      else u i j k
    else u i j k

/-- ExtrapolateVelocity of the source: the three face fields extrapolated
independently against their mark and wallmark grids built from A. -/
noncomputable def ExtrapolateVelocity (x y z : ℕ) (A : IGrid) (ux uy uz : FGrid) :
    FGrid × FGrid × FGrid :=
  (extrapolateOne (x + 1) y z (xmark x A) (xwallmark x A) ux,
   extrapolateOne x (y + 1) z (ymark y A) (ywallmark y A) uy,
   extrapolateOne x y (z + 1) (zmark z A) (zwallmark z A) uz)

theorem extrapolateOne_cond_false (ex ey ez : ℕ) (mark wallmark : ℤ → ℤ → ℤ → Bool)
    (u : FGrid) (i j k : ℤ)
    (h : ¬(0 ≤ i ∧ i < (ex : ℤ) ∧ 0 ≤ j ∧ j < (ey : ℤ) ∧ 0 ≤ k ∧ k < (ez : ℤ) ∧
           mark i j k = false ∧ wallmark i j k = true)) :
    extrapolateOne ex ey ez mark wallmark u i j k = u i j k := by
  unfold extrapolateOne
  rw [if_neg h]

theorem extrapolateOne_cond_true (ex ey ez : ℕ) (mark wallmark : ℤ → ℤ → ℤ → Bool)
    (u : FGrid) (i j k : ℤ)
    (h : 0 ≤ i ∧ i < (ex : ℤ) ∧ 0 ≤ j ∧ j < (ey : ℤ) ∧ 0 ≤ k ∧ k < (ez : ℤ) ∧
         mark i j k = false ∧ wallmark i j k = true) :
    extrapolateOne ex ey ez mark wallmark u i j k =
      (if ((faceNbrs i j k).filter (fun q =>
            decide (0 ≤ q.1 ∧ q.1 < (ex : ℤ) ∧ 0 ≤ q.2.1 ∧ q.2.1 < (ey : ℤ) ∧
                    0 ≤ q.2.2 ∧ q.2.2 < (ez : ℤ)) && mark q.1 q.2.1 q.2.2)).length ≠ 0 then
        (((faceNbrs i j k).filter (fun q =>
            decide (0 ≤ q.1 ∧ q.1 < (ex : ℤ) ∧ 0 ≤ q.2.1 ∧ q.2.1 < (ey : ℤ) ∧
                    0 ≤ q.2.2 ∧ q.2.2 < (ez : ℤ)) && mark q.1 q.2.1 q.2.2)).map
          (fun q => u q.1 q.2.1 q.2.2)).sum /
        ((((faceNbrs i j k).filter (fun q =>
            decide (0 ≤ q.1 ∧ q.1 < (ex : ℤ) ∧ 0 ≤ q.2.1 ∧ q.2.1 < (ey : ℤ) ∧
                    0 ≤ q.2.2 ∧ q.2.2 < (ez : ℤ)) && mark q.1 q.2.1 q.2.2)).length : ℝ))
      else u i j k) := by
  unfold extrapolateOne
  rw [if_pos h]

/-- A face marked true keeps its value through the pass: the extrapolation
only writes faces whose mark is false. -/
theorem extrapolateOne_mark_fix (ex ey ez : ℕ) (mark wallmark : ℤ → ℤ → ℤ → Bool)
    (u : FGrid) (i j k : ℤ) (h : mark i j k = true) :
    extrapolateOne ex ey ez mark wallmark u i j k = u i j k := by
  apply extrapolateOne_cond_false
  intro hc
  rw [h] at hc
  exact absurd hc.2.2.2.2.2.2.1 (by simp)

/-- One pass of the extrapolation is a fixed point of a second pass:
the averaged values read only mark-true neighbor faces, which the first
pass left unchanged. -/
theorem extrapolateOne_idem (ex ey ez : ℕ) (mark wallmark : ℤ → ℤ → ℤ → Bool)
    (u : FGrid) :
    extrapolateOne ex ey ez mark wallmark (extrapolateOne ex ey ez mark wallmark u) =
      extrapolateOne ex ey ez mark wallmark u := by
  funext i j k
  by_cases hcond : 0 ≤ i ∧ i < (ex : ℤ) ∧ 0 ≤ j ∧ j < (ey : ℤ) ∧ 0 ≤ k ∧ k < (ez : ℤ) ∧
      mark i j k = false ∧ wallmark i j k = true
  · rw [extrapolateOne_cond_true ex ey ez mark wallmark _ i j k hcond]
    by_cases hlen : ((faceNbrs i j k).filter (fun q =>
        decide (0 ≤ q.1 ∧ q.1 < (ex : ℤ) ∧ 0 ≤ q.2.1 ∧ q.2.1 < (ey : ℤ) ∧
                0 ≤ q.2.2 ∧ q.2.2 < (ez : ℤ)) && mark q.1 q.2.1 q.2.2)).length ≠ 0
    · rw [if_pos hlen]
      rw [extrapolateOne_cond_true ex ey ez mark wallmark u i j k hcond, if_pos hlen]
      congr 1
      congr 1
      apply List.map_congr_left
      intro q hq
      have hmq : mark q.1 q.2.1 q.2.2 = true := by
        have hf2 := (List.mem_filter.mp hq).2
        simp only [Bool.and_eq_true] at hf2
        exact hf2.2
      exact extrapolateOne_mark_fix ex ey ez mark wallmark u q.1 q.2.1 q.2.2 hmq
    · rw [if_neg hlen]
  · exact extrapolateOne_cond_false ex ey ez mark wallmark _ i j k hcond

/-- C6: running ExtrapolateVelocity twice with the same marker grid
produces exactly the same three face-velocity fields as running it once:
the pass writes only faces that are not mark and reads velocities only
at mark faces, which it never changes, so it is idempotent. -/
theorem C6_extrapolate_idempotent (x y z : ℕ) (A : IGrid) (ux uy uz : FGrid) :
    ExtrapolateVelocity x y z A
      (ExtrapolateVelocity x y z A ux uy uz).1
      (ExtrapolateVelocity x y z A ux uy uz).2.1
      (ExtrapolateVelocity x y z A ux uy uz).2.2 =
    ExtrapolateVelocity x y z A ux uy uz := by
  unfold ExtrapolateVelocity
  simp only
  rw [extrapolateOne_idem, extrapolateOne_idem, extrapolateOne_idem]

/-!
Claim C3: particle positions after AdvectParticles.
-/

/-- The advection update of AdvectParticles (first parallel loop): a
fluid particle moves by stepsize times the interpolated velocity.
InterpolateVelocity lives in the kernels file outside the provided
sources, so the velocity field enters as the oracle vel. -/
noncomputable def advectOne (vel : V3 → V3) (stepsize : ℝ) (q : Particle) : Particle :=
  if q.ptype = CellType.FLUID then { q with p := q.p + stepsize • vel q.p } else q

/-- Modelled from the spec: ParticleGrid GetCellNeighbors returns all
particles lying in cells within the given per-axis integer extent of the
center cell, a particle's cell being its position scaled to grid units.
The ParticleGrid implementation is outside the provided sources. -/
noncomputable def GetCellNeighbors (parts : List Particle) (maxd : ℝ)
    (ci cj ck radius : ℤ) : List Particle :=
  parts.filter (fun q =>
    decide (|⌊q.p.x * maxd⌋ - ci| ≤ radius ∧ |⌊q.p.y * maxd⌋ - cj| ≤ radius ∧
            |⌊q.p.z * maxd⌋ - ck| ≤ radius))

/-- The wall clamp of AdvectParticles: fluid particle positions are
clamped componentwise into [1/maxd, 1 - 1/maxd]. -/
noncomputable def wallClampOne (maxd : ℝ) (q : Particle) : Particle :=
  if q.ptype = CellType.FLUID then
    { q with p := vmax (vconst (1 / maxd)) (vmin (vconst (1 - 1 / maxd)) q.p) }
  else q

/-- One neighbor step of the solid-repulsion loop of AdvectParticles:
push the particle out of a close SOLID marker particle along its normal
(or along the inter-particle direction when the normal is tiny and the
distance nonzero) and remove the normal component of the velocity. -/
noncomputable def repelStep (maxd density : ℝ) (pr np : Particle) : Particle :=
  let re := 1.5 * density / maxd
  if np.ptype = CellType.SOLID then
    let dist := len (pr.p - np.p)
    if dist < re then
      let normal :=
        if len np.n < 0.0000001 ∧ dist ≠ 0 then normalize (pr.p - np.p) else np.n
      { pr with
          p := pr.p + (re - dist) • normal,
          u := pr.u - dot pr.u normal • normal }
    else pr
  else pr

/-- The second parallel loop of AdvectParticles for one particle: clamp
to the walls, then fold the solid repulsion over the particles of the
one-cell neighborhood of its cell.  Neighbors are read from the sorted
snapshot parts1 taken after the advection loop. -/
noncomputable def solidRepelOne (parts1 : List Particle) (x y z : ℕ)
    (maxd density : ℝ) (q0 : Particle) : Particle :=
  let q := wallClampOne maxd q0
  if q.ptype = CellType.FLUID then
    let ci : ℤ := ⌊min ((x : ℝ) - 1) (q.p.x * maxd)⌋
    let cj : ℤ := ⌊min ((y : ℝ) - 1) (q.p.y * maxd)⌋
    let ck : ℤ := ⌊min ((z : ℝ) - 1) (q.p.z * maxd)⌋
    (GetCellNeighbors parts1 maxd ci cj ck 1).foldl (repelStep maxd density) q
  else q

/-- AdvectParticles of the source: advect fluid particles by the
interpolated velocity, re-sort the particle grid, then clamp to the
walls and resolve against SOLID marker particles; the repulsion reads
neighbors from the post-advection snapshot. -/
noncomputable def AdvectParticles (vel : V3 → V3) (x y z : ℕ)
    (density stepsize : ℝ) (parts : List Particle) : List Particle :=
  (parts.map (advectOne vel stepsize)).map
    (solidRepelOne (parts.map (advectOne vel stepsize)) x y z
      (max (max (x : ℝ) (z : ℝ)) (y : ℝ)) density)

theorem advectOne_ptype (vel : V3 → V3) (s : ℝ) (q : Particle) :
    (advectOne vel s q).ptype = q.ptype := by
  unfold advectOne
  split <;> rfl

theorem wallClampOne_ptype (maxd : ℝ) (q : Particle) :
    (wallClampOne maxd q).ptype = q.ptype := by
  unfold wallClampOne
  split <;> rfl

theorem repelStep_skip (maxd density : ℝ) (pr np : Particle)
    (h : np.ptype ≠ CellType.SOLID) : repelStep maxd density pr np = pr := by
  unfold repelStep
  rw [if_neg h]

theorem repelFold_skip (maxd density : ℝ) (l : List Particle) (q : Particle)
    (h : ∀ np ∈ l, np.ptype ≠ CellType.SOLID) :
    l.foldl (repelStep maxd density) q = q := by
  induction l generalizing q with
  | nil => rfl
  | cons hd tl ih =>
    rw [List.foldl_cons, repelStep_skip maxd density q hd (h hd (List.mem_cons_self hd tl))]
    exact ih q (fun np hnp => h np (List.mem_cons_of_mem hd hnp))

/-- In the absence of SOLID particles the repulsion fold does nothing,
so the second loop is exactly the wall clamp. -/
theorem solidRepelOne_no_solid (parts1 : List Particle) (x y z : ℕ)
    (maxd density : ℝ) (q0 : Particle)
    (h : ∀ r ∈ parts1, r.ptype ≠ CellType.SOLID) :
    solidRepelOne parts1 x y z maxd density q0 = wallClampOne maxd q0 := by
  unfold solidRepelOne
  show (if (wallClampOne maxd q0).ptype = CellType.FLUID then
      (GetCellNeighbors parts1 maxd
        ⌊min ((x : ℝ) - 1) ((wallClampOne maxd q0).p.x * maxd)⌋
        ⌊min ((y : ℝ) - 1) ((wallClampOne maxd q0).p.y * maxd)⌋
        ⌊min ((z : ℝ) - 1) ((wallClampOne maxd q0).p.z * maxd)⌋ 1).foldl
        (repelStep maxd density) (wallClampOne maxd q0)
    else wallClampOne maxd q0) = wallClampOne maxd q0
  split
  · apply repelFold_skip
    intro np hnp
    exact h np (List.mem_filter.mp hnp).1
  · rfl

theorem wallClampOne_bounds (maxd : ℝ) (hm : 2 ≤ maxd) (q : Particle)
    (hq : q.ptype = CellType.FLUID) :
    (1 / maxd ≤ (wallClampOne maxd q).p.x ∧ (wallClampOne maxd q).p.x ≤ 1 - 1 / maxd) ∧
    (1 / maxd ≤ (wallClampOne maxd q).p.y ∧ (wallClampOne maxd q).p.y ≤ 1 - 1 / maxd) ∧
    (1 / maxd ≤ (wallClampOne maxd q).p.z ∧ (wallClampOne maxd q).p.z ≤ 1 - 1 / maxd) := by
  have h0 : (0 : ℝ) < maxd := by linarith
  have hr : 1 / maxd ≤ 1 - 1 / maxd := by
    have h2 : 1 / maxd ≤ 1 / 2 := by
      rw [div_le_div_iff₀ h0 (by norm_num)]
      linarith
    linarith
  unfold wallClampOne
  rw [if_pos hq]
  simp only [vmax, vmin, vconst]
  refine ⟨⟨le_max_left _ _, ?_⟩, ⟨le_max_left _ _, ?_⟩, ⟨le_max_left _ _, ?_⟩⟩ <;>
    exact max_le hr (min_le_left _ _)

/-- C3 (amended): after AdvectParticles, every FLUID particle of the
result lies in [1/maxd, 1 - 1/maxd] componentwise, provided maxd is at
least 2 and the particle array contains no SOLID marker particles: the
wall clamp establishes the bounds and without SOLID neighbors the
repulsion fold leaves the clamped position untouched.  (With a SOLID
neighbor in range the repulsion displaces the particle after the clamp
and can push it outside the interval, which is what the counterexample
exhibits.) -/
theorem C3_advect_bounds (vel : V3 → V3) (x y z : ℕ) (density stepsize : ℝ)
    (parts : List Particle) (m : ℕ) (q : Particle)
    (hmaxd : (2 : ℝ) ≤ max (max (x : ℝ) (z : ℝ)) (y : ℝ))
    (hnosolid : ∀ r ∈ parts, r.ptype ≠ CellType.SOLID)
    (hq : (AdvectParticles vel x y z density stepsize parts)[m]? = some q)
    (hfq : q.ptype = CellType.FLUID) :
    (1 / max (max (x : ℝ) (z : ℝ)) (y : ℝ) ≤ q.p.x ∧
      q.p.x ≤ 1 - 1 / max (max (x : ℝ) (z : ℝ)) (y : ℝ)) ∧
    (1 / max (max (x : ℝ) (z : ℝ)) (y : ℝ) ≤ q.p.y ∧
      q.p.y ≤ 1 - 1 / max (max (x : ℝ) (z : ℝ)) (y : ℝ)) ∧
    (1 / max (max (x : ℝ) (z : ℝ)) (y : ℝ) ≤ q.p.z ∧
      q.p.z ≤ 1 - 1 / max (max (x : ℝ) (z : ℝ)) (y : ℝ)) := by
  unfold AdvectParticles at hq
  rw [List.getElem?_map, List.getElem?_map] at hq
  cases hp : parts[m]? with
  | none => rw [hp] at hq; simp at hq
  | some p0 =>
    rw [hp] at hq
    simp only [Option.map_some'] at hq
    have hq' := Option.some.inj hq
    have hnosolid1 : ∀ r ∈ parts.map (advectOne vel stepsize),
        r.ptype ≠ CellType.SOLID := by
      intro r hr
      obtain ⟨r0, hr0, hr0eq⟩ := List.mem_map.mp hr
      rw [← hr0eq, advectOne_ptype]
      exact hnosolid r0 hr0
    rw [solidRepelOne_no_solid _ x y z _ density _ hnosolid1] at hq'
    have hft : (advectOne vel stepsize p0).ptype = CellType.FLUID := by
      rw [← wallClampOne_ptype (max (max (x : ℝ) (z : ℝ)) (y : ℝ))
        (advectOne vel stepsize p0), hq']
      exact hfq
    rw [← hq']
    exact wallClampOne_bounds _ hmaxd _ hft

/-- Zeta-expanded form of solidRepelOne, for calculation. -/
theorem solidRepelOne_eq (parts1 : List Particle) (x y z : ℕ) (maxd density : ℝ)
    (q0 : Particle) :
    solidRepelOne parts1 x y z maxd density q0 =
      (if (wallClampOne maxd q0).ptype = CellType.FLUID then
        (GetCellNeighbors parts1 maxd
          ⌊min ((x : ℝ) - 1) ((wallClampOne maxd q0).p.x * maxd)⌋
          ⌊min ((y : ℝ) - 1) ((wallClampOne maxd q0).p.y * maxd)⌋
          ⌊min ((z : ℝ) - 1) ((wallClampOne maxd q0).p.z * maxd)⌋ 1).foldl
          (repelStep maxd density) (wallClampOne maxd q0)
      else wallClampOne maxd q0) := rfl

/-- Zeta-expanded form of repelStep, for calculation. -/
theorem repelStep_eq (maxd density : ℝ) (pr np : Particle) :
    repelStep maxd density pr np =
      (if np.ptype = CellType.SOLID then
        if len (pr.p - np.p) < 1.5 * density / maxd then
          { pr with
              p := pr.p + (1.5 * density / maxd - len (pr.p - np.p)) •
                (if len np.n < 0.0000001 ∧ len (pr.p - np.p) ≠ 0 then
                  normalize (pr.p - np.p) else np.n),
              u := pr.u - dot pr.u
                (if len np.n < 0.0000001 ∧ len (pr.p - np.p) ≠ 0 then
                  normalize (pr.p - np.p) else np.n) •
                (if len np.n < 0.0000001 ∧ len (pr.p - np.p) ≠ 0 then
                  normalize (pr.p - np.p) else np.n) }
        else pr
      else pr) := rfl

theorem headI_cons (a : Particle) (l : List Particle) : (a :: l).headI = a := rfl

/-- The fluid probe particle of the C3 counterexample, at (2/3,1/2,1/2),
already inside the clamp interval for maxd = 3. -/
noncomputable def probeFluid : Particle :=
  ⟨⟨2 / 3, 1 / 2, 1 / 2⟩, 0, 0, 0, 0, CellType.FLUID⟩

/-- The SOLID marker particle of the C3 counterexample, a distance 1/10
left of probeFluid, with unit surface normal +x. -/
noncomputable def probeSolid : Particle :=
  ⟨⟨17 / 30, 1 / 2, 1 / 2⟩, 0, 0, 0, ⟨1, 0, 0⟩, CellType.SOLID⟩

theorem probe_dist : len (probeFluid.p - probeSolid.p) = 1 / 10 := by
  have hsub : probeFluid.p - probeSolid.p = ⟨1 / 10, 0, 0⟩ := by
    unfold probeFluid probeSolid
    rw [V3.sub_def]
    norm_num
  rw [hsub]
  have hsq : sqlen (⟨1 / 10, 0, 0⟩ : V3) = (1 / 10) ^ 2 := by
    unfold sqlen
    norm_num
  unfold len
  rw [hsq]
  exact Real.sqrt_sq (by norm_num)

theorem probe_advect :
    advectOne (fun _ => 0) 1 probeFluid = probeFluid ∧
    advectOne (fun _ => 0) 1 probeSolid = probeSolid := by
  constructor
  · unfold advectOne
    rw [if_pos (show probeFluid.ptype = CellType.FLUID from rfl)]
    have hp : probeFluid.p + (1 : ℝ) • (0 : V3) = probeFluid.p := by
      rw [V3.smul_zero, V3.add_zero]
    rw [hp]
  · unfold advectOne
    rw [if_neg (show ¬ probeSolid.ptype = CellType.FLUID from by intro hc; exact absurd hc (by decide))]

theorem probe_clamp : wallClampOne 3 probeFluid = probeFluid := by
  unfold wallClampOne
  rw [if_pos (show probeFluid.ptype = CellType.FLUID from rfl)]
  have hp : vmax (vconst (1 / 3)) (vmin (vconst (1 - 1 / 3)) probeFluid.p) =
      probeFluid.p := by
    unfold vmax vmin vconst probeFluid
    simp only
    ext
    · simp only
      rw [min_def, max_def]
      norm_num
    · simp only
      rw [min_def, max_def]
      norm_num
    · simp only
      rw [min_def, max_def]
      norm_num
  rw [hp]

theorem probe_solid_floors :
    ⌊probeSolid.p.x * (3 : ℝ)⌋ = 1 ∧ ⌊probeSolid.p.y * (3 : ℝ)⌋ = 1 ∧
    ⌊probeSolid.p.z * (3 : ℝ)⌋ = 1 := by
  refine ⟨?_, ?_, ?_⟩ <;>
    (unfold probeSolid; simp only; rw [Int.floor_eq_iff] <;> norm_num)

theorem probe_fluid_floors :
    ⌊probeFluid.p.x * (3 : ℝ)⌋ = 2 ∧ ⌊probeFluid.p.y * (3 : ℝ)⌋ = 1 ∧
    ⌊probeFluid.p.z * (3 : ℝ)⌋ = 1 := by
  refine ⟨?_, ?_, ?_⟩ <;>
    (unfold probeFluid; simp only; rw [Int.floor_eq_iff] <;> norm_num)

theorem probe_neighbors :
    GetCellNeighbors [probeFluid, probeSolid] 3 2 1 1 1 = [probeFluid, probeSolid] := by
  unfold GetCellNeighbors
  rw [List.filter_cons, List.filter_cons, List.filter_nil]
  rw [if_pos, if_pos]
  · show decide (|⌊probeSolid.p.x * (3 : ℝ)⌋ - 2| ≤ 1 ∧ |⌊probeSolid.p.y * (3 : ℝ)⌋ - 1| ≤ 1 ∧
      |⌊probeSolid.p.z * (3 : ℝ)⌋ - 1| ≤ 1) = true
    rw [probe_solid_floors.1, probe_solid_floors.2.1, probe_solid_floors.2.2]
    decide
  · show decide (|⌊probeFluid.p.x * (3 : ℝ)⌋ - 2| ≤ 1 ∧ |⌊probeFluid.p.y * (3 : ℝ)⌋ - 1| ≤ 1 ∧
      |⌊probeFluid.p.z * (3 : ℝ)⌋ - 1| ≤ 1) = true
    rw [probe_fluid_floors.1, probe_fluid_floors.2.1, probe_fluid_floors.2.2]
    decide

theorem probe_normal_big :
    ¬ (len probeSolid.n < 0.0000001 ∧ (1 : ℝ) / 10 ≠ 0) := by
  intro hc
  have hn1 : len probeSolid.n = 1 := by
    unfold probeSolid len sqlen
    simp only
    rw [show (1 : ℝ) * 1 + 0 * 0 + 0 * 0 = 1 by norm_num]
    exact Real.sqrt_one
  rw [hn1] at hc
  norm_num at hc

theorem probe_repel :
    repelStep 3 1 probeFluid probeSolid =
      Particle.mk (probeFluid.p + ((1.5 : ℝ) * 1 / 3 - 1 / 10) • probeSolid.n)
        (probeFluid.u - dot probeFluid.u probeSolid.n • probeSolid.n)
        probeFluid.pt probeFluid.ut probeFluid.n probeFluid.ptype := by
  rw [repelStep_eq]
  rw [if_pos (show probeSolid.ptype = CellType.SOLID from rfl)]
  rw [probe_dist]
  rw [if_pos (show (1 : ℝ) / 10 < 1.5 * 1 / 3 by norm_num)]
  simp only [if_neg probe_normal_big]

/-- C3 counterexample: with dimensions 3x3x3 (maxd = 3), density 1,
stepsize 1, an identically-zero velocity field, a fluid particle at
(2/3,1/2,1/2) and a SOLID marker particle a distance 1/10 to its left
with normal +x, AdvectParticles returns the fluid particle at
x = 2/3 + (1/2 - 1/10) = 16/15, strictly beyond the claimed upper bound
1 - 1/maxd = 2/3: the solid-repulsion displacement runs after the wall
clamp and can push a FLUID particle outside [1/maxd, 1 - 1/maxd]. -/
theorem C3_counterexample :
    (AdvectParticles (fun _ => 0) 3 3 3 1 1 [probeFluid, probeSolid]).headI.ptype =
      CellType.FLUID ∧
    (AdvectParticles (fun _ => 0) 3 3 3 1 1 [probeFluid, probeSolid]).headI.p.x =
      16 / 15 ∧
    ¬ ((16 : ℝ) / 15 ≤ 1 - 1 / max (max ((3 : ℕ) : ℝ) ((3 : ℕ) : ℝ)) ((3 : ℕ) : ℝ)) := by
  have hmaxd : max (max ((3 : ℕ) : ℝ) ((3 : ℕ) : ℝ)) ((3 : ℕ) : ℝ) = 3 := by
    norm_num
  have hmap : List.map (advectOne (fun _ => 0) 1) [probeFluid, probeSolid] =
      [probeFluid, probeSolid] := by
    rw [List.map_cons, List.map_cons, List.map_nil, probe_advect.1, probe_advect.2]
  have hhead : (AdvectParticles (fun _ => 0) 3 3 3 1 1 [probeFluid, probeSolid]).headI =
      solidRepelOne [probeFluid, probeSolid] 3 3 3 3 1 probeFluid := by
    unfold AdvectParticles
    rw [hmap, hmaxd, List.map_cons]
    rfl
  have hfloor2 : ⌊min (((3 : ℕ) : ℝ) - 1) ((wallClampOne 3 probeFluid).p.x * 3)⌋ = 2 := by
    rw [probe_clamp]
    unfold probeFluid
    simp only
    rw [Int.floor_eq_iff]
    rw [min_def]
    norm_num
  have hfloor1y : ⌊min (((3 : ℕ) : ℝ) - 1) ((wallClampOne 3 probeFluid).p.y * 3)⌋ = 1 := by
    rw [probe_clamp]
    unfold probeFluid
    simp only
    rw [Int.floor_eq_iff]
    rw [min_def]
    norm_num
  have hfloor1z : ⌊min (((3 : ℕ) : ℝ) - 1) ((wallClampOne 3 probeFluid).p.z * 3)⌋ = 1 := by
    rw [probe_clamp]
    unfold probeFluid
    simp only
    rw [Int.floor_eq_iff]
    rw [min_def]
    norm_num
  have hrep : solidRepelOne [probeFluid, probeSolid] 3 3 3 3 1 probeFluid =
      Particle.mk (probeFluid.p + ((1.5 : ℝ) * 1 / 3 - 1 / 10) • probeSolid.n)
        (probeFluid.u - dot probeFluid.u probeSolid.n • probeSolid.n)
        probeFluid.pt probeFluid.ut probeFluid.n probeFluid.ptype := by
    rw [solidRepelOne_eq]
    rw [hfloor2, hfloor1y, hfloor1z]
    rw [if_pos (show (wallClampOne 3 probeFluid).ptype = CellType.FLUID from by
      rw [probe_clamp]; rfl)]
    rw [probe_clamp, probe_neighbors]
    rw [List.foldl_cons, List.foldl_cons, List.foldl_nil]
    rw [repelStep_skip 3 1 probeFluid probeFluid
      (show ¬ probeFluid.ptype = CellType.SOLID from by
        intro hc; exact absurd hc (by decide))]
    exact probe_repel
  refine ⟨?_, ?_, ?_⟩
  · rw [hhead, hrep]
    rfl
  · rw [hhead, hrep]
    show (probeFluid.p + ((1.5 : ℝ) * 1 / 3 - 1 / 10) • probeSolid.n).x = 16 / 15
    unfold probeFluid probeSolid
    rw [V3.smul_def, V3.add_def]
    norm_num
  · rw [hmaxd]
    norm_num

/-- C3 witness for the amended theorem: one fluid particle at the center
of a 3x3x3 box, zero velocity field, no SOLID particles: the result is
the particle itself and its position obeys the claimed bounds. -/
theorem C3_witness :
    ((2 : ℝ) ≤ max (max ((3 : ℕ) : ℝ) ((3 : ℕ) : ℝ)) ((3 : ℕ) : ℝ)) ∧
    ((1 / max (max ((3 : ℕ) : ℝ) ((3 : ℕ) : ℝ)) ((3 : ℕ) : ℝ) ≤
        ((AdvectParticles (fun _ => 0) 3 3 3 1 1
          [⟨⟨1 / 2, 1 / 2, 1 / 2⟩, 0, 0, 0, 0, CellType.FLUID⟩]).headI).p.x ∧
      ((AdvectParticles (fun _ => 0) 3 3 3 1 1
          [⟨⟨1 / 2, 1 / 2, 1 / 2⟩, 0, 0, 0, 0, CellType.FLUID⟩]).headI).p.x ≤
        1 - 1 / max (max ((3 : ℕ) : ℝ) ((3 : ℕ) : ℝ)) ((3 : ℕ) : ℝ)) ∧
     (1 / max (max ((3 : ℕ) : ℝ) ((3 : ℕ) : ℝ)) ((3 : ℕ) : ℝ) ≤
        ((AdvectParticles (fun _ => 0) 3 3 3 1 1
          [⟨⟨1 / 2, 1 / 2, 1 / 2⟩, 0, 0, 0, 0, CellType.FLUID⟩]).headI).p.y ∧
      ((AdvectParticles (fun _ => 0) 3 3 3 1 1
          [⟨⟨1 / 2, 1 / 2, 1 / 2⟩, 0, 0, 0, 0, CellType.FLUID⟩]).headI).p.y ≤
        1 - 1 / max (max ((3 : ℕ) : ℝ) ((3 : ℕ) : ℝ)) ((3 : ℕ) : ℝ)) ∧
     (1 / max (max ((3 : ℕ) : ℝ) ((3 : ℕ) : ℝ)) ((3 : ℕ) : ℝ) ≤
        ((AdvectParticles (fun _ => 0) 3 3 3 1 1
          [⟨⟨1 / 2, 1 / 2, 1 / 2⟩, 0, 0, 0, 0, CellType.FLUID⟩]).headI).p.z ∧
      ((AdvectParticles (fun _ => 0) 3 3 3 1 1
          [⟨⟨1 / 2, 1 / 2, 1 / 2⟩, 0, 0, 0, 0, CellType.FLUID⟩]).headI).p.z ≤
        1 - 1 / max (max ((3 : ℕ) : ℝ) ((3 : ℕ) : ℝ)) ((3 : ℕ) : ℝ))) := by
  have hnosolid : ∀ r ∈ [(⟨⟨1 / 2, 1 / 2, 1 / 2⟩, 0, 0, 0, 0, CellType.FLUID⟩ : Particle)],
      r.ptype ≠ CellType.SOLID := by
    intro r hr
    rw [List.mem_singleton] at hr
    rw [hr]
    intro hc
    exact absurd hc (by decide)
  have hhead : (AdvectParticles (fun _ => 0) 3 3 3 1 1
      [(⟨⟨1 / 2, 1 / 2, 1 / 2⟩, 0, 0, 0, 0, CellType.FLUID⟩ : Particle)])[0]? =
      some ((AdvectParticles (fun _ => 0) 3 3 3 1 1
        [(⟨⟨1 / 2, 1 / 2, 1 / 2⟩, 0, 0, 0, 0, CellType.FLUID⟩ : Particle)]).headI) := by
    unfold AdvectParticles
    rw [List.map_cons, List.map_nil, List.map_cons, List.map_nil]
    rfl
  have hfq : ((AdvectParticles (fun _ => 0) 3 3 3 1 1
      [(⟨⟨1 / 2, 1 / 2, 1 / 2⟩, 0, 0, 0, 0, CellType.FLUID⟩ : Particle)]).headI).ptype =
      CellType.FLUID := by
    unfold AdvectParticles
    rw [List.map_cons, List.map_nil, List.map_cons, List.map_nil, headI_cons]
    rw [solidRepelOne_no_solid]
    · rw [wallClampOne_ptype, advectOne_ptype]
    · intro r hr
      rw [List.mem_singleton] at hr
      rw [hr, advectOne_ptype]
      intro hc
      exact absurd hc (by decide)
  refine ⟨by norm_num, ?_⟩
  exact C3_advect_bounds (fun _ => 0) 3 3 3 1 1
    [(⟨⟨1 / 2, 1 / 2, 1 / 2⟩, 0, 0, 0, 0, CellType.FLUID⟩ : Particle)] 0 _
    (by norm_num) hnosolid hhead hfq

end Ariel
